import Mathlib

/-!
Shallow embedding of the AWS Lake Formation access-control automation
repository (three Python lambdas: `lakeformation_automation` — the central
dispatcher, and the `central` / `consumption` account permission handlers).

External service calls (Lake Formation grant/revoke, Glue catalog lookup and
database creation, SNS publishes, sleeps) are modelled as an emitted trace of
`Call` values; Python exceptions are modelled with `Except PyErr`.  Python
dicts with optional keys become structures of `Option` fields; the value of a
wildcard key (always the empty dict `{}` in the manifests) is modelled as
`Unit`.
-/

deriving instance DecidableEq for Except

namespace LF

/-- `leadsList sep xs` is true when the character list `sep` occurs at the
head of `xs` (Python `xs.startswith(sep)` on the char level). -/
def leadsList : List Char → List Char → Bool
  | [], _ => true
  | _ :: _, [] => false
  | a :: as, b :: bs => a == b && leadsList as bs

/-- `hasSub sep xs` is true when `sep` occurs as a contiguous sublist of
`xs`; for a non-empty `sep` this is Python's substring test `sep in xs`.
(All uses in this repository have non-empty separators.) -/
def hasSub (sep : List Char) : List Char → Bool
  | [] => false
  | c :: cs => leadsList sep (c :: cs) || hasSub sep cs

/-- Fuel-indexed worker for Python `str.split(sep)` on character lists: scans
left to right, splitting at each non-overlapping occurrence of `sep`.  With
`fuel > xs.length` the fuel never runs out. -/
def splitSubFuel (sep : List Char) : Nat → List Char → List Char → List (List Char)
  | 0, acc, xs => [acc.reverse ++ xs]
  | _ + 1, acc, [] => [acc.reverse]
  | fuel + 1, acc, c :: cs =>
    if sep ≠ [] ∧ leadsList sep (c :: cs) then
      acc.reverse :: splitSubFuel sep fuel [] (List.drop (sep.length - 1) cs)
    else
      splitSubFuel sep fuel (c :: acc) cs

/-- Python `s.split(sep)` for a non-empty separator. -/
def pySplit (s sep : String) : List String :=
  (splitSubFuel sep.data (s.data.length + 1) [] s.data).map String.mk

/-- Python `sub in s` (substring containment) for a non-empty `sub`. -/
def pyIn (sub s : String) : Bool :=
  hasSub sub.data s.data

/-- The routing-prefix strip applied to `DatabaseName` in both `buildjson`
functions: `if 'foundation_' in db: db = db.split('foundation_')[1]`. -/
def stripFoundation (db : String) : String :=
  if pyIn "foundation_" db then (pySplit db "foundation_").getD 1 "" else db

/-- ASCII lower-casing of one character. -/
def lowChar (c : Char) : Char :=
  if 'A' ≤ c ∧ c ≤ 'Z' then Char.ofNat (c.toNat + 32) else c

/-- Python `s.lower()` (ASCII range, which covers every `AccessType`
comparison in the source). -/
def pyLower (s : String) : String :=
  String.mk (s.data.map lowChar)

/-- The permission-capping logic shared by both `buildjson` functions
(central `perm_lit = ["SELECT", "DESCRIBE"]`, consumption
`perm_lit = ["SELECT"]`): if `list(set(perm_lit) - set(perms))` is non-empty
(some ceiling element is missing from the input) the output is the ceiling
list, otherwise the input list is returned unchanged. -/
def capPermissions (ceiling perms : List String) : List String :=
  if ceiling.all (fun x => perms.contains x) then perms else ceiling

/-- `Table` selector of a raw manifest record: each Python dict key becomes
an `Option` field. -/
structure TableSel where
  DatabaseName : Option String
  Name : Option String
  TableWildcard : Option Unit
  deriving DecidableEq

/-- `TableWithColumns` selector of a raw manifest record. -/
structure TWCSel where
  DatabaseName : Option String
  Name : Option String
  ColumnNames : Option (List String)
  ColumnWildcard : Option Unit
  deriving DecidableEq

/-- A raw permission record as read from the manifest / SNS message
(`perms_to_set`).  `AccountID` is the routing field used by `publish_sns`. -/
structure PermRecord where
  Principal : Option String
  AccessType : Option String
  Table : Option TableSel
  TableWithColumns : Option TWCSel
  Permissions : Option (List String)
  PermissionsWithGrantOption : Option (List String)
  AccountID : Option String
  deriving DecidableEq

/-- The `table_json` dict built by `buildjson` (non-empty case). -/
structure TableJson where
  DatabaseName : String
  CatalogId : String
  Name : Option String
  TableWildcard : Option Unit
  deriving DecidableEq

/-- The `tableWithColumns_json` dict built by `buildjson` (non-empty case):
`Name` is mandatory there. -/
structure TWCJson where
  DatabaseName : String
  CatalogId : String
  Name : String
  ColumnNames : Option (List String)
  ColumnWildcard : Option Unit
  deriving DecidableEq

/-- The `Resource` argument of a Lake Formation API call. -/
inductive LFResource where
  | database (catalogId : Option String) (name : String)
  | table (t : TableJson)
  | tableWithColumns (t : TWCJson)
  | empty
  deriving DecidableEq

/-- One external side effect.  `grantPerms`'s last component is the
`PermissionsWithGrantOption` argument: `none` when the call site does not
pass that keyword at all (the consumption lambda), `some l` when it does
(the central lambda).  `deleteDatabase` is never emitted by any embedded
function: the code contains no delete call. -/
inductive Call where
  | grantPerms (principal : String) (res : LFResource) (perms : List String)
      (grantOpt : Option (List String))
  | revokePerms (principal : String) (res : LFResource) (perms : List String)
  | getDatabase (name : String)
  | createDatabase (name targetCatalogId targetDbName : String)
  | deleteDatabase (name : String)
  | snsPublish (rec : PermRecord) (attrAccountId : String)
  | sleepSec (n : Nat)
  deriving DecidableEq

/-- Python exceptions raised by the embedded code.  The source defines a
single custom exception class `LFAttributeError`; `keyError`, `typeErr` and
`nameErr` model built-in Python errors at dict/None accesses, `serviceErr`
models an exception propagated from an external client call. -/
inductive PyErr where
  | lfAttributeError
  | keyError (k : String)
  | typeErr
  | nameErr
  | serviceErr (msg : String)
  deriving DecidableEq

/-! ## Central-account permission lambda
(`src/lakeformation_permissions/central/lambda_function.py`) -/

/-- `grant_db_describe` in the central lambda: grants `DESCRIBE` on
`{'Database': {'Name': database}}` (no `CatalogId` key) to the principal. -/
def centralDescribeCall (principal database : String) : Call :=
  Call.grantPerms principal (LFResource.database none database) ["DESCRIBE"] none

/-- The tuple returned by the central `buildjson`: the `Option` fields model
dicts that may remain empty (`table_json`/`tableWithColumns_json` when the
other branch was taken, `perm_json` when `Permissions` was absent — the
central code's `else: LFAttributeError` line evaluates the class without
raising it — and `perm_grant_json` when `PermissionsWithGrantOption` was
absent). -/
structure CentralBuilt where
  principal : String
  table : Option TableJson
  twc : Option TWCJson
  perm : Option (List String)
  permGrant : Option (List String)
  deriving DecidableEq

/-- The central `buildjson(event)`: validates the record, issues the
DB-level DESCRIBE grant as a side effect (before the routing-prefix strip
and before the `Name`/wildcard checks), strips the `foundation_` prefix,
and caps `Permissions` with `perm_lit = ["SELECT", "DESCRIBE"]`.
`accountId` is `os.environ['ACCOUNT_ID']`. -/
def centralBuildjson (accountId : String) (event : PermRecord) :
    List Call × Except PyErr CentralBuilt :=
  match event.Principal with
  | none => ([], .error .lfAttributeError)
  | some prin =>
    let perm? := event.Permissions.map (capPermissions ["SELECT", "DESCRIBE"])
    let permGrant? := event.PermissionsWithGrantOption.map
      (fun _ => ["SELECT", "DESCRIBE"])
    match event.Table with
    | some t =>
      match t.DatabaseName with
      | none => ([], .error .lfAttributeError)
      | some db =>
        let tr := [centralDescribeCall prin db]
        let db2 := stripFoundation db
        match t.Name with
        | some nm =>
          (tr, .ok ⟨prin, some ⟨db2, accountId, some nm, none⟩, none, perm?, permGrant?⟩)
        | none =>
          match t.TableWildcard with
          | some w =>
            (tr, .ok ⟨prin, some ⟨db2, accountId, none, some w⟩, none, perm?, permGrant?⟩)
          | none => (tr, .error .lfAttributeError)
    | none =>
      match event.TableWithColumns with
      | some t =>
        match t.DatabaseName with
        | none => ([], .error .lfAttributeError)
        | some db =>
          let tr := [centralDescribeCall prin db]
          let db2 := stripFoundation db
          match t.Name with
          | none => (tr, .error .lfAttributeError)
          | some nm =>
            match t.ColumnNames with
            | some cns =>
              (tr, .ok ⟨prin, none, some ⟨db2, accountId, nm, some cns, none⟩, perm?, permGrant?⟩)
            | none =>
              match t.ColumnWildcard with
              | some w =>
                (tr, .ok ⟨prin, none, some ⟨db2, accountId, nm, none, some w⟩, perm?, permGrant?⟩)
              | none => (tr, .error .lfAttributeError)
      | none => ([], .error .lfAttributeError)

/-- The `Resource` dict assembled by `grant_lf_permissions` /
`revoke_lf_permissions`: `Table` wins over `TableWithColumns`; both empty
leaves the resource dict empty. -/
def resourceOf (table : Option TableJson) (twc : Option TWCJson) : LFResource :=
  match table with
  | some t => LFResource.table t
  | none =>
    match twc with
    | some t => LFResource.tableWithColumns t
    | none => LFResource.empty

/-- The central `grant_lf_permissions`: always passes
`PermissionsWithGrantOption=perm_with_grant` (the empty list when
`perm_grant_json` is empty); accessing `perm_json['Permissions']` on an
empty `perm_json` raises `KeyError` before the API call. -/
def centralGrantLf (b : CentralBuilt) : List Call × Except PyErr Unit :=
  let res := resourceOf b.table b.twc
  let pg := b.permGrant.getD []
  match b.perm with
  | none => ([], .error (.keyError "Permissions"))
  | some ps => ([Call.grantPerms b.principal res ps (some pg)], .ok ())

/-- The central `revoke_lf_permissions`: no grant-option argument. -/
def centralRevokeLf (b : CentralBuilt) : List Call × Except PyErr Unit :=
  let res := resourceOf b.table b.twc
  match b.perm with
  | none => ([], .error (.keyError "Permissions"))
  | some ps => ([Call.revokePerms b.principal res ps], .ok ())

/-- The tail of the central `lambda_handler` after the record loop:
dispatches on `event_body['AccessType'].lower()` of the LAST record, with
the jsons built from that record. -/
def centralFinal (lastRec : PermRecord) (b : CentralBuilt) :
    List Call × Except PyErr Unit :=
  match lastRec.AccessType with
  | none => ([], .error (.keyError "AccessType"))
  | some at_ =>
    if pyLower at_ = "grant" then centralGrantLf b
    else if pyLower at_ = "revoke" then centralRevokeLf b
    else ([], .error .lfAttributeError)

/-- The record loop of the central `lambda_handler`: runs `buildjson` on
every record (aborting the batch on the first error), keeping only the last
record's outputs. -/
def centralLoop (accountId : String) (prev : PermRecord × CentralBuilt) :
    List PermRecord → List Call × Except PyErr (PermRecord × CentralBuilt)
  | [] => ([], .ok prev)
  | r :: rs =>
    let (tr, res) := centralBuildjson accountId r
    match res with
    | .error e => (tr, .error e)
    | .ok b =>
      let (tr2, res2) := centralLoop accountId (r, b) rs
      (tr ++ tr2, res2)

/-- The central `lambda_handler` over the already-unwrapped record bodies:
an empty batch leaves `event_body` (and the jsons) unbound — a `NameError`
at the log statement after the loop. -/
def centralHandler (accountId : String) (records : List PermRecord) :
    List Call × Except PyErr Unit :=
  match records with
  | [] => ([], .error .nameErr)
  | r :: rs =>
    let (tr, res) := centralBuildjson accountId r
    match res with
    | .error e => (tr, .error e)
    | .ok b =>
      let (tr2, res2) := centralLoop accountId (r, b) rs
      match res2 with
      | .error e => (tr ++ tr2, .error e)
      | .ok (lastRec, lastB) =>
        let (tr3, res3) := centralFinal lastRec lastB
        (tr ++ tr2 ++ tr3, res3)

/-! ## Consumption-account permission lambda
(`src/lakeformation_permissions/consumption/lambda_function.py`) -/

/-- Outcome of `glue_client.get_database(Name=...)` for a given name:
found, `EntityNotFoundException`, or any other exception (with message). -/
inductive LookupResult where
  | found
  | notFound
  | failure (msg : String)
  deriving DecidableEq

/-- Process-wide context of the consumption lambda: `ACCOUNT_ID`,
`FOUNDATION_ACCOUNT_ID`, and the catalog's response to each lookup. -/
structure ConsEnv where
  accId : String
  fAccId : String
  catalog : String → LookupResult

/-- `check_db_exist`: `True` on success, `False` on
`EntityNotFoundException`, re-raises anything else. -/
def consCheckDbExist (env : ConsEnv) (db : String) :
    List Call × Except PyErr Bool :=
  match env.catalog db with
  | .found => ([Call.getDatabase db], .ok true)
  | .notFound => ([Call.getDatabase db], .ok false)
  | .failure m => ([Call.getDatabase db], .error (.serviceErr m))

/-- `grant_db_describe` in the consumption lambda: prepends `foundation_`
when absent, looks the (prefixed) database up, lazily creates the resource
link (`TargetDatabase = {CatalogId: f_acc_id,
DatabaseName: database.split('foundation_')[1]}`) when the lookup reports
not-found, then grants `DESCRIBE` on
`{'Database': {'CatalogId': acc_id, 'Name': database}}`. -/
def consGrantDbDescribe (env : ConsEnv) (prin db0 : String) :
    List Call × Except PyErr Unit :=
  let db := if pyIn "foundation_" db0 then db0 else "foundation_" ++ db0
  let (tr, r) := consCheckDbExist env db
  match r with
  | .error e => (tr, .error e)
  | .ok true =>
    (tr ++ [Call.grantPerms prin (LFResource.database (some env.accId) db)
      ["DESCRIBE"] none], .ok ())
  | .ok false =>
    (tr ++ [Call.createDatabase db env.fAccId ((pySplit db "foundation_").getD 1 ""),
      Call.grantPerms prin (LFResource.database (some env.accId) db)
      ["DESCRIBE"] none], .ok ())

/-- The tuple returned by the consumption `buildjson` (no
`perm_grant_json` on this path). -/
structure ConsBuilt where
  principal : String
  table : Option TableJson
  twc : Option TWCJson
  perm : Option (List String)
  deriving DecidableEq

/-- The consumption `buildjson(event)`: same shape as the central one but
with `CatalogId = f_acc_id` in the resource jsons, the stateful consumption
`grant_db_describe` (whose failure aborts `buildjson`), and
`perm_lit = ["SELECT"]`. -/
def consBuildjson (env : ConsEnv) (event : PermRecord) :
    List Call × Except PyErr ConsBuilt :=
  match event.Principal with
  | none => ([], .error .lfAttributeError)
  | some prin =>
    let perm? := event.Permissions.map (capPermissions ["SELECT"])
    match event.Table with
    | some t =>
      match t.DatabaseName with
      | none => ([], .error .lfAttributeError)
      | some db =>
        let (tr, rd) := consGrantDbDescribe env prin db
        match rd with
        | .error e => (tr, .error e)
        | .ok _ =>
          let db2 := stripFoundation db
          match t.Name with
          | some nm =>
            (tr, .ok ⟨prin, some ⟨db2, env.fAccId, some nm, none⟩, none, perm?⟩)
          | none =>
            match t.TableWildcard with
            | some w =>
              (tr, .ok ⟨prin, some ⟨db2, env.fAccId, none, some w⟩, none, perm?⟩)
            | none => (tr, .error .lfAttributeError)
    | none =>
      match event.TableWithColumns with
      | some t =>
        match t.DatabaseName with
        | none => ([], .error .lfAttributeError)
        | some db =>
          let (tr, rd) := consGrantDbDescribe env prin db
          match rd with
          | .error e => (tr, .error e)
          | .ok _ =>
            let db2 := stripFoundation db
            match t.Name with
            | none => (tr, .error .lfAttributeError)
            | some nm =>
              match t.ColumnNames with
              | some cns =>
                (tr, .ok ⟨prin, none, some ⟨db2, env.fAccId, nm, some cns, none⟩, perm?⟩)
              | none =>
                match t.ColumnWildcard with
                | some w =>
                  (tr, .ok ⟨prin, none, some ⟨db2, env.fAccId, nm, none, some w⟩, perm?⟩)
                | none => (tr, .error .lfAttributeError)
      | none => ([], .error .lfAttributeError)

/-- The consumption `grant_lf_permissions`: the API call passes no
`PermissionsWithGrantOption` keyword at all (`grantOpt = none`). -/
def consGrantLf (b : ConsBuilt) : List Call × Except PyErr Unit :=
  let res := resourceOf b.table b.twc
  match b.perm with
  | none => ([], .error (.keyError "Permissions"))
  | some ps => ([Call.grantPerms b.principal res ps none], .ok ())

/-- The consumption `revoke_lf_permissions`. -/
def consRevokeLf (b : ConsBuilt) : List Call × Except PyErr Unit :=
  let res := resourceOf b.table b.twc
  match b.perm with
  | none => ([], .error (.keyError "Permissions"))
  | some ps => ([Call.revokePerms b.principal res ps], .ok ())

/-- Tail of the consumption `lambda_handler` after the loop. -/
def consFinal (lastRec : PermRecord) (b : ConsBuilt) :
    List Call × Except PyErr Unit :=
  match lastRec.AccessType with
  | none => ([], .error (.keyError "AccessType"))
  | some at_ =>
    if pyLower at_ = "grant" then consGrantLf b
    else if pyLower at_ = "revoke" then consRevokeLf b
    else ([], .error .lfAttributeError)

/-- Record loop of the consumption `lambda_handler`. -/
def consLoop (env : ConsEnv) (prev : PermRecord × ConsBuilt) :
    List PermRecord → List Call × Except PyErr (PermRecord × ConsBuilt)
  | [] => ([], .ok prev)
  | r :: rs =>
    let (tr, res) := consBuildjson env r
    match res with
    | .error e => (tr, .error e)
    | .ok b =>
      let (tr2, res2) := consLoop env (r, b) rs
      (tr ++ tr2, res2)

/-- The consumption `lambda_handler` over the unwrapped record bodies. -/
def consHandler (env : ConsEnv) (records : List PermRecord) :
    List Call × Except PyErr Unit :=
  match records with
  | [] => ([], .error .nameErr)
  | r :: rs =>
    let (tr, res) := consBuildjson env r
    match res with
    | .error e => (tr, .error e)
    | .ok b =>
      let (tr2, res2) := consLoop env (r, b) rs
      match res2 with
      | .error e => (tr ++ tr2, .error e)
      | .ok (lastRec, lastB) =>
        let (tr3, res3) := consFinal lastRec lastB
        (tr ++ tr2 ++ tr3, res3)

/-! ## Central dispatcher lambda
(`src/lakeformation_automation/lambda_function.py`) -/

/-- The account-id group (group 4) of the ARN regex
`^arn:(Partition):(Service):(Region):(AccountID):((ResourceType)[:/])?(Resource)$`
where the first four groups are `[^:\n]*`: the string matches exactly when
it starts with `arn` and has at least five colons (the groups are then
forced by the colon positions, and the optional resource-type group never
affects group 4); the model omits the regex's newline exclusions.  Returns
`none` when `re.match` returns `None`. -/
def arnAccountId (s : String) : Option String :=
  let parts := pySplit s ":"
  if 6 ≤ parts.length ∧ parts.getD 0 "" = "arn" then some (parts.getD 4 "")
  else none

/-- `generate_db_perm(perm_record)`: on a matching principal ARN builds the
DB-describe companion record — `AccountID` is the dispatcher's own
`os.environ['ACCOUNT_ID']`, `Principal` is the account id parsed from the
ARN, the table selector is `{DatabaseName, TableWildcard: {}}`, permissions
are `["SELECT", "DESCRIBE"]` (also as grant option) and `AccessType` is
`grant`; a non-matching principal raises `LFAttributeError`. -/
def generateDbPerm (envAccId : String) (r : PermRecord) :
    Except PyErr PermRecord :=
  match r.Principal with
  | none => .error (.keyError "Principal")
  | some p =>
    match arnAccountId p with
    | none => .error .lfAttributeError
    | some acc =>
      match r.Table with
      | some t =>
        match t.DatabaseName with
        | none => .error .lfAttributeError
        | some db =>
          .ok ⟨some acc, some "grant", some ⟨some db, none, some ()⟩, none,
            some ["SELECT", "DESCRIBE"], some ["SELECT", "DESCRIBE"],
            some envAccId⟩
      | none =>
        match r.TableWithColumns with
        | none => .error .lfAttributeError
        | some t =>
          match t.DatabaseName with
          | none => .error .lfAttributeError
          | some db =>
            .ok ⟨some acc, some "grant", some ⟨some db, none, some ()⟩, none,
              some ["SELECT", "DESCRIBE"], some ["SELECT", "DESCRIBE"],
              some envAccId⟩

/-- Process-wide context of the dispatcher: its own `ACCOUNT_ID` and the
HTTP status code SNS returns for publishing a given record. -/
structure DispatchEnv where
  accId : String
  pubStatus : PermRecord → Nat

/-- `publish_sns(record)`: publishes with message attribute
`account_id = str(record['AccountID'])` (a `KeyError` when the record has
no `AccountID` key) and returns the response status. -/
def publishSns (env : DispatchEnv) (r : PermRecord) :
    List Call × Except PyErr Nat :=
  match r.AccountID with
  | none => ([], .error (.keyError "AccountID"))
  | some a => ([Call.snsPublish r a], .ok (env.pubStatus r))

/-- One iteration of the dispatcher's per-record loop: evaluates
`perm_record['AccessType'] == 'grant' and regex_obj[4] != acc_id`
(short-circuit: `regex_obj[4]` on a failed match — a `TypeError` — is only
reached when `AccessType` equals `grant` exactly), publishes the generated
DB-describe record first, sleeps 3 seconds when that publish returned
status 200, and always ends by publishing the original record. -/
def dispatchRecord (env : DispatchEnv) (r : PermRecord) :
    List Call × Except PyErr Unit :=
  match r.Principal with
  | none => ([], .error (.keyError "Principal"))
  | some p =>
    match r.AccessType with
    | none => ([], .error (.keyError "AccessType"))
    | some at_ =>
      if at_ = "grant" then
        match arnAccountId p with
        | none => ([], .error .typeErr)
        | some acc =>
          if acc ≠ env.accId then
            match generateDbPerm env.accId r with
            | .error e => ([], .error e)
            | .ok dbp =>
              let (tr1, r1) := publishSns env dbp
              match r1 with
              | .error e => (tr1, .error e)
              | .ok status =>
                let tr2 := if status = 200 then [Call.sleepSec 3] else []
                let (tr3, r3) := publishSns env r
                (tr1 ++ tr2 ++ tr3, r3.map (fun _ => ()))
          else
            let (tr3, r3) := publishSns env r
            (tr3, r3.map (fun _ => ()))
      else
        let (tr3, r3) := publishSns env r
        (tr3, r3.map (fun _ => ()))

/-- The dispatcher's loop over the permission records of one manifest
(`for perm_record in s3_content['Records']`), aborting on the first
raised exception. -/
def dispatchLoop (env : DispatchEnv) :
    List PermRecord → List Call × Except PyErr Unit
  | [] => ([], .ok ())
  | r :: rs =>
    let (tr, res) := dispatchRecord env r
    match res with
    | .error e => (tr, .error e)
    | .ok _ =>
      let (tr2, res2) := dispatchLoop env rs
      (tr ++ tr2, res2)

/-! ## Shared concrete inputs and helper lemmas -/

/-- Principal ARN used by the spec's end-to-end scenario A. -/
def arnConsumer : String := "arn:aws:iam::222222222222:role/consumer"

/-- Scenario A input exactly as the spec states it (the `Table` selector
carries only `DatabaseName`). -/
def recScenarioA : PermRecord :=
  ⟨some arnConsumer, some "grant", some ⟨some "foundation_sales", none, none⟩,
    none, some ["SELECT"], none, none⟩

/-- Scenario A input with a `TableWildcard: {}` entry added to the
selector. -/
def recScenarioAW : PermRecord :=
  ⟨some arnConsumer, some "grant", some ⟨some "foundation_sales", none, some ()⟩,
    none, some ["SELECT"], none, none⟩

/-- A valid central-path record whose permission list strictly contains the
central ceiling `{SELECT, DESCRIBE}`. -/
def recSuperset : PermRecord :=
  ⟨some arnConsumer, some "grant", some ⟨some "foundation_sales", none, some ()⟩,
    none, some ["SELECT", "DESCRIBE", "DROP"], none, none⟩

/-- A valid record whose permission list strictly contains the consumption
ceiling `{SELECT}`. -/
def recConsSuperset : PermRecord :=
  ⟨some arnConsumer, some "grant", some ⟨some "foundation_sales", none, some ()⟩,
    none, some ["SELECT", "DESCRIBE"], none, none⟩

/-- A consumption environment whose catalog already contains every
database. -/
def envFound : ConsEnv := ⟨"333333333333", "444444444444", fun _ => .found⟩

theorem all_contains_iff (c p : List String) :
    c.all (fun x => p.contains x) = true ↔ ∀ x ∈ c, x ∈ p := by
  simp [List.all_eq_true, List.contains, List.elem_iff]

theorem stringMk_data : ∀ s : String, String.mk s.data = s
  | ⟨_⟩ => rfl

/-- The `perm` output of a successful central `buildjson` is exactly the
input `Permissions` capped with the central ceiling list. -/
theorem centralBuildjson_ok_perm (a : String) (e : PermRecord) (r : CentralBuilt)
    (h : (centralBuildjson a e).2 = .ok r) :
    r.perm = e.Permissions.map (capPermissions ["SELECT", "DESCRIBE"]) := by
  unfold centralBuildjson at h
  repeat' split at h
  all_goals dsimp only at h
  all_goals first | (injection h with h2; subst h2; rfl) | simp_all

/-- The `permGrant` output of a successful central `buildjson` is the
ceiling list whenever the input had a `PermissionsWithGrantOption` key,
regardless of its contents. -/
theorem centralBuildjson_ok_permGrant (a : String) (e : PermRecord) (r : CentralBuilt)
    (h : (centralBuildjson a e).2 = .ok r) :
    r.permGrant = e.PermissionsWithGrantOption.map (fun _ => ["SELECT", "DESCRIBE"]) := by
  unfold centralBuildjson at h
  repeat' split at h
  all_goals dsimp only at h
  all_goals first | (injection h with h2; subst h2; rfl) | simp_all

/-- The `perm` output of a successful consumption `buildjson` is exactly
the input `Permissions` capped with the consumption ceiling list. -/
theorem consBuildjson_ok_perm (env : ConsEnv) (e : PermRecord) (r : ConsBuilt)
    (h : (consBuildjson env e).2 = .ok r) :
    r.perm = e.Permissions.map (capPermissions ["SELECT"]) := by
  unfold consBuildjson at h
  repeat' split at h
  all_goals dsimp only at h
  all_goals first | (injection h with h2; subst h2; rfl) | simp_all

/-! ## C1 — permission-ceiling policy -/

/-- C1 counterexample: the claim says normalizing any superset of the
ceiling yields exactly the ceiling set ("never widened beyond it"), but
`buildjson` keeps any input that fully contains the ceiling unchanged: on
the central path `["SELECT", "DESCRIBE", "DROP"]` is emitted as-is, and on
the consumption path `["SELECT", "DESCRIBE"]` survives the `{SELECT}`
ceiling. -/
theorem C1_counterexample :
    (centralBuildjson "111111111111" recSuperset).2.map CentralBuilt.perm =
      .ok (some ["SELECT", "DESCRIBE", "DROP"]) ∧
    some ["SELECT", "DESCRIBE", "DROP"] ≠ some (["SELECT", "DESCRIBE"] : List String) ∧
    (consBuildjson envFound recConsSuperset).2.map ConsBuilt.perm =
      .ok (some ["SELECT", "DESCRIBE"]) ∧
    some ["SELECT", "DESCRIBE"] ≠ some (["SELECT"] : List String) := by
  decide

/-- C1 amended: if the input permission set does not fully contain the
path's ceiling, the emitted set is exactly the ceiling; if the input fully
contains the ceiling it is emitted unchanged (so strict supersets are NOT
reduced to the ceiling); the cap is idempotent; and both `buildjson`
functions emit exactly this cap of the input `Permissions`. -/
theorem C1_perm_ceiling :
    (∀ ceiling perms : List String, (∃ x ∈ ceiling, x ∉ perms) →
      capPermissions ceiling perms = ceiling) ∧
    (∀ ceiling perms : List String, (∀ x ∈ ceiling, x ∈ perms) →
      capPermissions ceiling perms = perms) ∧
    (∀ ceiling perms : List String,
      capPermissions ceiling (capPermissions ceiling perms) =
        capPermissions ceiling perms) ∧
    (∀ a e r, (centralBuildjson a e).2 = .ok r →
      r.perm = e.Permissions.map (capPermissions ["SELECT", "DESCRIBE"])) ∧
    (∀ env e r, (consBuildjson env e).2 = .ok r →
      r.perm = e.Permissions.map (capPermissions ["SELECT"])) := by
  refine ⟨?_, ?_, ?_, ?_, ?_⟩
  · intro c p ⟨x, hx, hnx⟩
    unfold capPermissions
    rw [if_neg]
    intro hall
    exact hnx ((all_contains_iff c p).mp hall x hx)
  · intro c p h
    unfold capPermissions
    rw [if_pos ((all_contains_iff c p).mpr h)]
  · intro c p
    unfold capPermissions
    by_cases h : c.all (fun x => p.contains x) = true
    · rw [if_pos h, if_pos h]
    · rw [if_neg h, if_pos ((all_contains_iff c c).mpr (fun x hx => hx))]
  · exact centralBuildjson_ok_perm
  · exact consBuildjson_ok_perm

/-- Witness for `C1_perm_ceiling` at concrete inputs. -/
theorem C1_perm_ceiling_witness :
    capPermissions ["SELECT", "DESCRIBE"] ["DROP"] = ["SELECT", "DESCRIBE"] ∧
    capPermissions ["SELECT"] ["SELECT"] = ["SELECT"] ∧
    (⟨arnConsumer, some ⟨"sales", "111111111111", none, some ()⟩, none,
      some ["SELECT", "DESCRIBE"], none⟩ : CentralBuilt).perm =
      recScenarioAW.Permissions.map (capPermissions ["SELECT", "DESCRIBE"]) :=
  ⟨C1_perm_ceiling.1 _ _ ⟨"SELECT", by decide, by decide⟩,
   C1_perm_ceiling.2.1 _ _ (by decide),
   C1_perm_ceiling.2.2.2.1 "111111111111" recScenarioAW _ (by decide)⟩

/-! ## C2 — end-to-end scenario A on the central path -/

/-- C2 counterexample: on the input exactly as the claim states it (the
`Table` selector has neither `Name` nor `TableWildcard`), the central
`buildjson` raises `LFAttributeError`, so no fine-grained grant is built at
all — and the one DESCRIBE grant it did issue first targets the UNstripped
database name `foundation_sales`, not `sales`. -/
theorem C2_counterexample :
    centralBuildjson "111111111111" recScenarioA =
      ([centralDescribeCall arnConsumer "foundation_sales"],
        .error .lfAttributeError) ∧
    centralDescribeCall arnConsumer "foundation_sales" =
      Call.grantPerms arnConsumer (.database none "foundation_sales")
        ["DESCRIBE"] none ∧
    "foundation_sales" ≠ "sales" := by
  decide

/-- C2 amended: with `TableWildcard: {}` added to the selector (the record
is otherwise rejected), the central path yields the DB-level DESCRIBE grant
for database `foundation_sales` (the routing prefix is NOT stripped for the
DB-describe side effect) followed by a fine-grained grant with
`Permissions=["SELECT","DESCRIBE"]` and `Table.DatabaseName="sales"` (the
prefix is stripped from the fine-grained resource). -/
theorem C2_scenarioA :
    centralHandler "111111111111" [recScenarioAW] =
      ([Call.grantPerms arnConsumer (.database none "foundation_sales")
          ["DESCRIBE"] none,
        Call.grantPerms arnConsumer
          (.table ⟨"sales", "111111111111", none, some ()⟩)
          ["SELECT", "DESCRIBE"] (some [])], .ok ()) := by
  decide

/-! ## C3 — routing attribute of dispatcher publishes -/

/-- Dispatcher environment for concrete runs: central account
`111111111111`, SNS always acknowledging with HTTP 200. -/
def envDispatch : DispatchEnv := ⟨"111111111111", fun _ => 200⟩

/-- A well-formed cross-account grant record as the dispatcher sees it. -/
def recDispatch : PermRecord :=
  ⟨some arnConsumer, some "grant", some ⟨some "db1", none, some ()⟩, none,
    some ["SELECT"], none, some "222222222222"⟩

/-- The DB-describe companion record `generate_db_perm` builds for
`recDispatch` under central account `111111111111`. -/
def dbPermDispatch : PermRecord :=
  ⟨some "222222222222", some "grant", some ⟨some "db1", none, some ()⟩, none,
    some ["SELECT", "DESCRIBE"], some ["SELECT", "DESCRIBE"], some "111111111111"⟩

/-- C3 counterexample: the resolved target account of `recDispatch` is
`222222222222`, but the DB-describe intent is published with routing
attribute `111111111111` — `generate_db_perm` stores the dispatcher's own
`ACCOUNT_ID` in the `AccountID` field that `publish_sns` uses, not the
account id parsed from the principal ARN. -/
theorem C3_counterexample :
    arnAccountId arnConsumer = some "222222222222" ∧
    generateDbPerm "111111111111" recDispatch = .ok dbPermDispatch ∧
    (dispatchRecord envDispatch recDispatch).1 =
      [Call.snsPublish dbPermDispatch "111111111111", Call.sleepSec 3,
        Call.snsPublish recDispatch "222222222222"] ∧
    "111111111111" ≠ "222222222222" := by
  decide

/-- Fields of a successfully generated DB-describe companion record:
`AccountID` is the dispatcher's own account id and `Principal` is the
account id parsed from the input record's principal ARN. -/
theorem generateDbPerm_fields (envAcc : String) (r dbp : PermRecord)
    (h : generateDbPerm envAcc r = .ok dbp) :
    dbp.AccountID = some envAcc ∧
    ∃ p acc, r.Principal = some p ∧ arnAccountId p = some acc ∧
      dbp.Principal = some acc := by
  unfold generateDbPerm at h
  repeat' split at h
  all_goals first
    | (injection h with h2; subst h2;
       exact ⟨rfl, _, _, by assumption, by assumption, rfl⟩)
    | simp_all

/-- C3 amended: every publish carries the published record's own
`AccountID` field as the routing attribute; for the generated DB-describe
intent that field is the dispatcher's own account id (while the account id
parsed from the principal ARN becomes the intent's `Principal`), and for
the original record it is whatever `AccountID` the manifest supplied. -/
theorem C3_routing_attribute :
    (∀ env r a, r.AccountID = some a →
      publishSns env r = ([Call.snsPublish r a], .ok (env.pubStatus r))) ∧
    (∀ envAcc r dbp, generateDbPerm envAcc r = .ok dbp →
      dbp.AccountID = some envAcc ∧
      ∃ p acc, r.Principal = some p ∧ arnAccountId p = some acc ∧
        dbp.Principal = some acc) := by
  constructor
  · intro env r a h
    unfold publishSns
    rw [h]
  · exact generateDbPerm_fields

/-- Witness for `C3_routing_attribute` at concrete inputs. -/
theorem C3_routing_attribute_witness :
    publishSns envDispatch recDispatch =
      ([Call.snsPublish recDispatch "222222222222"],
        .ok (envDispatch.pubStatus recDispatch)) ∧
    (dbPermDispatch.AccountID = some "111111111111" ∧
      ∃ p acc, recDispatch.Principal = some p ∧ arnAccountId p = some acc ∧
        dbPermDispatch.Principal = some acc) :=
  ⟨C3_routing_attribute.1 envDispatch recDispatch _ rfl,
   C3_routing_attribute.2 "111111111111" recDispatch dbPermDispatch (by decide)⟩

/-! ## C4 — record with both selector variants -/

/-- A record in which both `Table` and `TableWithColumns` are fully
populated. -/
def recBothSel : PermRecord :=
  ⟨some arnConsumer, some "grant",
    some ⟨some "dbA", some "tabA", none⟩,
    some ⟨some "dbB", some "tabB", some ["c1"], none⟩,
    some ["SELECT", "DESCRIBE"], none, none⟩

/-- C4 counterexample: a record with both selector variants populated is
NOT rejected — `buildjson` takes the `Table` branch, issues the DB-describe
service call, and returns successfully on both paths. -/
theorem C4_counterexample :
    (centralBuildjson "111111111111" recBothSel).2 =
      .ok ⟨arnConsumer, some ⟨"dbA", "111111111111", some "tabA", none⟩, none,
        some ["SELECT", "DESCRIBE"], none⟩ ∧
    (centralBuildjson "111111111111" recBothSel).1 =
      [centralDescribeCall arnConsumer "dbA"] ∧
    (consBuildjson envFound recBothSel).2 =
      .ok ⟨arnConsumer, some ⟨"dbA", "444444444444", some "tabA", none⟩, none,
        some ["SELECT", "DESCRIBE"]⟩ ∧
    (consBuildjson envFound recBothSel).1 ≠ [] := by
  decide

/-- C4 amended: when both selector variants are populated the `Table`
branch wins and `TableWithColumns` is ignored entirely — processing (and
its service calls) is identical to the same record without the
`TableWithColumns` key; no rejection happens. -/
theorem C4_table_branch_wins :
    (∀ a e t, e.Table = some t →
      centralBuildjson a e = centralBuildjson a {e with TableWithColumns := none}) ∧
    (∀ env e t, e.Table = some t →
      consBuildjson env e = consBuildjson env {e with TableWithColumns := none}) := by
  constructor
  · intro a e t ht
    obtain ⟨P, AT, Tab, TWC, Pm, PG, AID⟩ := e
    cases ht
    cases P <;> rfl
  · intro env e t ht
    obtain ⟨P, AT, Tab, TWC, Pm, PG, AID⟩ := e
    cases ht
    cases P <;> rfl

/-- Witness for `C4_table_branch_wins` at a concrete input. -/
theorem C4_table_branch_wins_witness :
    centralBuildjson "111111111111" recBothSel =
      centralBuildjson "111111111111" {recBothSel with TableWithColumns := none} :=
  C4_table_branch_wins.1 "111111111111" recBothSel _ rfl

/-! ## C5 — error taxonomy of normalization -/

/-- A record whose principal does not match the ARN grammar. -/
def recBadArn : PermRecord :=
  ⟨some "not-an-arn", some "grant", some ⟨some "db1", none, some ()⟩, none,
    some ["SELECT"], none, some "222222222222"⟩

/-- A record with no resource-selector variant at all. -/
def recNoSelector : PermRecord :=
  ⟨some arnConsumer, some "grant", none, none, some ["SELECT"], none, none⟩

/-- A valid record whose `Permissions` block is absent. -/
def recNoPerms : PermRecord :=
  ⟨some arnConsumer, some "grant", some ⟨some "db1", none, some ()⟩, none,
    none, none, none⟩

/-- C5 counterexample: the code does not distinguish failure causes by
type — an unparseable principal and a missing selector both raise the one
class `LFAttributeError`; and a record with no `Permissions` block does not
fail normalization at all (the `else: LFAttributeError` statement evaluates
the class without raising it), returning an empty permission dict. -/
theorem C5_counterexample :
    generateDbPerm "111111111111" recBadArn = .error .lfAttributeError ∧
    (centralBuildjson "111111111111" recNoSelector).2 = .error .lfAttributeError ∧
    (centralBuildjson "111111111111" recNoPerms).2 =
      .ok ⟨arnConsumer, some ⟨"db1", "111111111111", none, some ()⟩, none,
        none, none⟩ := by
  decide

/-- C5 amended: normalization failures all carry the single type
`LFAttributeError` — both for a principal that does not match the ARN
grammar and for missing mandatory fields — and an absent `Permissions`
block does not raise during normalization: `buildjson` succeeds with an
empty `perm_json`, and the failure only surfaces later as a `KeyError`
inside `grant_lf_permissions`. -/
theorem C5_single_error_type :
    (∀ envAcc r p, r.Principal = some p → arnAccountId p = none →
      generateDbPerm envAcc r = .error .lfAttributeError) ∧
    (∀ a e, e.Principal.isSome → e.Table = none → e.TableWithColumns = none →
      (centralBuildjson a e).2 = .error .lfAttributeError) ∧
    (∀ a e r, e.Permissions = none → (centralBuildjson a e).2 = .ok r →
      r.perm = none) ∧
    (∀ b : CentralBuilt, b.perm = none →
      centralGrantLf b = ([], .error (.keyError "Permissions"))) := by
  refine ⟨?_, ?_, ?_, ?_⟩
  · intro envAcc r p hp ha
    simp only [generateDbPerm, hp, ha]
  · intro a e h1 h2 h3
    obtain ⟨p, hp⟩ := Option.isSome_iff_exists.mp h1
    simp only [centralBuildjson, hp, h2, h3]
  · intro a e r hPerm h
    rw [centralBuildjson_ok_perm a e r h, hPerm]
    rfl
  · intro b hb
    unfold centralGrantLf
    rw [hb]

/-- Witness for `C5_single_error_type` at concrete inputs. -/
theorem C5_single_error_type_witness :
    generateDbPerm "111111111111" recBadArn = .error .lfAttributeError ∧
    (centralBuildjson "111111111111" recNoSelector).2 = .error .lfAttributeError ∧
    (⟨arnConsumer, some ⟨"db1", "111111111111", none, some ()⟩, none, none,
      none⟩ : CentralBuilt).perm = none ∧
    centralGrantLf ⟨arnConsumer, none, none, none, none⟩ =
      ([], .error (.keyError "Permissions")) :=
  ⟨C5_single_error_type.1 "111111111111" recBadArn "not-an-arn" rfl (by decide),
   C5_single_error_type.2.1 "111111111111" recNoSelector (by decide) rfl rfl,
   C5_single_error_type.2.2.1 "111111111111" recNoPerms _ rfl (by decide),
   C5_single_error_type.2.2.2 _ rfl⟩

/-! ## String lemmas about the Python split/containment model -/

theorem leadsList_append (sep xs : List Char) :
    leadsList sep (sep ++ xs) = true := by
  induction sep with
  | nil => rfl
  | cons a as ih =>
    simp only [List.cons_append, leadsList, beq_self_eq_true, Bool.true_and]
    exact ih

theorem hasSub_append_self (sep xs : List Char) (hne : sep ≠ []) :
    hasSub sep (sep ++ xs) = true := by
  obtain ⟨c, cs, rfl⟩ := List.exists_cons_of_ne_nil hne
  simp only [List.cons_append, hasSub, Bool.or_eq_true]
  exact Or.inl (leadsList_append (c :: cs) xs)

theorem splitSubFuel_of_no_occurrence (sep : List Char) :
    ∀ (xs : List Char) (fuel : Nat) (acc : List Char),
      hasSub sep xs = false → xs.length < fuel →
      splitSubFuel sep fuel acc xs = [acc.reverse ++ xs] := by
  intro xs
  induction xs with
  | nil =>
    intro fuel acc _ hfuel
    match fuel, hfuel with
    | f + 1, _ => simp [splitSubFuel]

  | cons c cs ih =>
    intro fuel acc hno hfuel
    simp only [hasSub, Bool.or_eq_false_iff] at hno
    match fuel, hfuel with
    | f + 1, hfuel =>
      rw [splitSubFuel, if_neg]
      · rw [ih f (c :: acc) hno.2 (by
          simp only [List.length_cons] at hfuel
          omega)]
        simp
      · intro hand
        rw [hno.1] at hand
        exact Bool.false_ne_true hand.2

theorem splitSubFuel_sep_append (sep xs : List Char) (fuel : Nat)
    (hne : sep ≠ []) (hno : hasSub sep xs = false)
    (hfuel : (sep ++ xs).length < fuel) :
    splitSubFuel sep fuel [] (sep ++ xs) = [[], xs] := by
  obtain ⟨c, cs, rfl⟩ := List.exists_cons_of_ne_nil hne
  match fuel, hfuel with
  | f + 1, hfuel =>
    rw [List.cons_append, splitSubFuel, if_pos]
    · have hdrop : List.drop ((c :: cs).length - 1) (cs ++ xs) = xs := by
        simp only [List.length_cons, Nat.add_sub_cancel]
        exact List.drop_left cs xs
      rw [hdrop,
        splitSubFuel_of_no_occurrence (c :: cs) xs f [] hno
          (by
            simp only [List.cons_append, List.length_cons,
              List.length_append] at hfuel
            omega)]
      simp
    · refine ⟨by simp, ?_⟩
      rw [← List.cons_append]
      exact leadsList_append (c :: cs) xs

/-- Splitting `"foundation_" ++ bare` at `"foundation_"` gives
`["", bare]` when `bare` itself has no occurrence of the separator. -/
theorem pySplit_strip (bare : String) (hb : pyIn "foundation_" bare = false) :
    pySplit ("foundation_" ++ bare) "foundation_" = ["", bare] := by
  unfold pySplit
  rw [String.data_append]
  rw [splitSubFuel_sep_append "foundation_".data bare.data _
      (by decide) hb (by omega)]
  have h0 : String.mk [] = "" := rfl
  simp only [List.map, stringMk_data, h0]

/-- Prepending the routing marker makes the substring test true. -/
theorem pyIn_prepend (bare : String) :
    pyIn "foundation_" ("foundation_" ++ bare) = true := by
  unfold pyIn
  rw [String.data_append]
  exact hasSub_append_self "foundation_".data bare.data (by decide)

/-! ## C7 — resource-link reconciliation on the consumption path -/

/-- C7 confirmed (for bare database names, i.e. names with no occurrence of
the routing marker): the consumption `grant_db_describe` always looks up
`"foundation_" ++ bare` first; when the lookup reports not-found it creates
the resource link with `TargetCatalogId = FOUNDATION_ACCOUNT_ID` and
`TargetDatabaseName = bare` and then grants; when the entry exists it
leaves it untouched and grants; any other lookup failure propagates
unmodified and aborts before the DESCRIBE grant; and no call ever deletes a
database. -/
theorem C7_resource_link (env : ConsEnv) (prin bare : String)
    (hb : pyIn "foundation_" bare = false) :
    ((consGrantDbDescribe env prin bare).1.head? =
      some (Call.getDatabase ("foundation_" ++ bare))) ∧
    (env.catalog ("foundation_" ++ bare) = .found →
      consGrantDbDescribe env prin bare =
        ([Call.getDatabase ("foundation_" ++ bare),
          Call.grantPerms prin
            (.database (some env.accId) ("foundation_" ++ bare))
            ["DESCRIBE"] none], .ok ())) ∧
    (env.catalog ("foundation_" ++ bare) = .notFound →
      consGrantDbDescribe env prin bare =
        ([Call.getDatabase ("foundation_" ++ bare),
          Call.createDatabase ("foundation_" ++ bare) env.fAccId bare,
          Call.grantPerms prin
            (.database (some env.accId) ("foundation_" ++ bare))
            ["DESCRIBE"] none], .ok ())) ∧
    (∀ m, env.catalog ("foundation_" ++ bare) = .failure m →
      consGrantDbDescribe env prin bare =
        ([Call.getDatabase ("foundation_" ++ bare)],
          .error (.serviceErr m))) ∧
    (∀ c ∈ (consGrantDbDescribe env prin bare).1, ∀ n,
      c ≠ Call.deleteDatabase n) := by
  have hdb : (if pyIn "foundation_" bare = true then bare
      else "foundation_" ++ bare) = "foundation_" ++ bare := by
    rw [hb]
    exact if_neg (by decide)
  have hkey : ∀ res, env.catalog ("foundation_" ++ bare) = res →
      consGrantDbDescribe env prin bare =
        (match res with
          | .found =>
            ([Call.getDatabase ("foundation_" ++ bare),
              Call.grantPerms prin
                (.database (some env.accId) ("foundation_" ++ bare))
                ["DESCRIBE"] none], .ok ())
          | .notFound =>
            ([Call.getDatabase ("foundation_" ++ bare),
              Call.createDatabase ("foundation_" ++ bare) env.fAccId bare,
              Call.grantPerms prin
                (.database (some env.accId) ("foundation_" ++ bare))
                ["DESCRIBE"] none], .ok ())
          | .failure m =>
            ([Call.getDatabase ("foundation_" ++ bare)],
              .error (.serviceErr m))) := by
    intro res hres
    unfold consGrantDbDescribe consCheckDbExist
    rw [hdb]
    dsimp only
    rw [hres]
    cases res with
    | found => rfl
    | notFound =>
      rw [pySplit_strip bare hb]
      rfl
    | failure m => rfl
  refine ⟨?_, ?_, ?_, ?_, ?_⟩
  · cases hres : env.catalog ("foundation_" ++ bare) <;>
      rw [hkey _ hres] <;> rfl
  · intro hres
    exact hkey _ hres
  · intro hres
    exact hkey _ hres
  · intro m hres
    exact hkey _ hres
  · intro c hc n hcn
    subst hcn
    cases hres : env.catalog ("foundation_" ++ bare) <;>
      rw [hkey _ hres] at hc <;> simp at hc

/-- Witness for `C7_resource_link` at concrete inputs. -/
theorem C7_resource_link_witness :
    consGrantDbDescribe ⟨"333333333333", "444444444444", fun _ => .notFound⟩
        arnConsumer "sales" =
      ([Call.getDatabase "foundation_sales",
        Call.createDatabase "foundation_sales" "444444444444" "sales",
        Call.grantPerms arnConsumer
          (.database (some "333333333333") "foundation_sales")
          ["DESCRIBE"] none], .ok ()) :=
  (C7_resource_link ⟨"333333333333", "444444444444", fun _ => .notFound⟩
    arnConsumer "sales" (by decide)).2.2.1 rfl

/-! ## C8 — grant options -/

/-- The `PermissionsWithGrantOption` argument carried by a call (`none` for
calls that do not pass the keyword at all, and for non-grant calls). -/
def grantOptOf : Call → Option (List String)
  | .grantPerms _ _ _ g => g
  | _ => none

/-- A call that requests no grantable permissions. -/
def noGrantOpt (c : Call) : Bool :=
  (grantOptOf c).isNone

theorem consGrantDbDescribe_noOpt (env : ConsEnv) (prin db0 : String) :
    ((consGrantDbDescribe env prin db0).1.all noGrantOpt) = true := by
  cases h : env.catalog (if pyIn "foundation_" db0 = true then db0
      else "foundation_" ++ db0) <;>
    simp [consGrantDbDescribe, consCheckDbExist, h, noGrantOpt, grantOptOf]

theorem consBuildjson_noOpt (env : ConsEnv) (e : PermRecord) :
    ((consBuildjson env e).1.all noGrantOpt) = true := by
  obtain ⟨P, AT, Tab, TWC, Pm, PG, AID⟩ := e
  cases P with
  | none => rfl
  | some p =>
    cases Tab with
    | some t =>
      obtain ⟨dbn, nm, tw⟩ := t
      cases dbn with
      | none => rfl
      | some db =>
        unfold consBuildjson
        dsimp only
        rcases hgd : consGrantDbDescribe env p db with ⟨tr, rd⟩
        have hd : (tr, rd).1.all noGrantOpt = true := by
          rw [← hgd]
          exact consGrantDbDescribe_noOpt env p db
        cases rd <;> cases nm <;> cases tw <;> exact hd
    | none =>
      cases TWC with
      | none => rfl
      | some t =>
        obtain ⟨dbn, nm, cn, cw⟩ := t
        cases dbn with
        | none => rfl
        | some db =>
          unfold consBuildjson
          dsimp only
          rcases hgd : consGrantDbDescribe env p db with ⟨tr, rd⟩
          have hd : (tr, rd).1.all noGrantOpt = true := by
            rw [← hgd]
            exact consGrantDbDescribe_noOpt env p db
          cases rd <;> cases nm <;> cases cn <;> cases cw <;> exact hd

theorem consFinal_noOpt (r : PermRecord) (b : ConsBuilt) :
    ((consFinal r b).1.all noGrantOpt) = true := by
  unfold consFinal consGrantLf consRevokeLf
  repeat' split
  all_goals rfl

theorem consLoop_noOpt (env : ConsEnv) (rs : List PermRecord) :
    ∀ prev, ((consLoop env prev rs).1.all noGrantOpt) = true := by
  induction rs with
  | nil => intro prev; rfl
  | cons r rs ih =>
    intro prev
    unfold consLoop
    dsimp only
    rcases hb : consBuildjson env r with ⟨tr, res⟩
    have h1 : (tr, res).1.all noGrantOpt = true := by
      rw [← hb]
      exact consBuildjson_noOpt env r
    cases res with
    | error e => exact h1
    | ok b =>
      dsimp only
      rcases hl : consLoop env (r, b) rs with ⟨tr2, res2⟩
      have h2 : (tr2, res2).1.all noGrantOpt = true := by
        rw [← hl]
        exact ih (r, b)
      dsimp only at h1 h2
      dsimp only
      rw [List.all_append, h1, h2]
      rfl

theorem consHandler_noOpt (env : ConsEnv) (records : List PermRecord) :
    ((consHandler env records).1.all noGrantOpt) = true := by
  cases records with
  | nil => rfl
  | cons r rs =>
    unfold consHandler
    dsimp only
    rcases hb : consBuildjson env r with ⟨tr, res⟩
    have h1 : (tr, res).1.all noGrantOpt = true := by
      rw [← hb]
      exact consBuildjson_noOpt env r
    cases res with
    | error e => exact h1
    | ok b =>
      dsimp only
      rcases hl : consLoop env (r, b) rs with ⟨tr2, res2⟩
      have h2 : (tr2, res2).1.all noGrantOpt = true := by
        rw [← hl]
        exact consLoop_noOpt env rs (r, b)
      dsimp only at h1 h2
      cases res2 with
      | error e =>
        dsimp only
        rw [List.all_append, h1, h2]
        rfl
      | ok q =>
        dsimp only
        rcases hf : consFinal q.1 q.2 with ⟨tr3, res3⟩
        have h3 : (tr3, res3).1.all noGrantOpt = true := by
          rw [← hf]
          exact consFinal_noOpt q.1 q.2
        dsimp only at h3
        dsimp only
        rw [List.all_append, List.all_append, h1, h2, h3]
        rfl

/-- C8 confirmed: no call the consumption handler ever emits carries a
`PermissionsWithGrantOption` argument (the keyword is absent from every
consumption-path API call), and on the central path a present
`PermissionsWithGrantOption` input is replaced by exactly
`["SELECT", "DESCRIBE"]` whatever its contents were. -/
theorem C8_grant_options :
    (∀ env records, ∀ c ∈ (consHandler env records).1, grantOptOf c = none) ∧
    (∀ a e r, (centralBuildjson a e).2 = .ok r →
      e.PermissionsWithGrantOption.isSome →
      r.permGrant = some ["SELECT", "DESCRIBE"]) := by
  constructor
  · intro env records c hc
    have h := List.all_eq_true.mp (consHandler_noOpt env records) c hc
    simpa [noGrantOpt, Option.isNone_iff_eq_none] using h
  · intro a e r h hg
    rw [centralBuildjson_ok_permGrant a e r h]
    obtain ⟨g, hgg⟩ := Option.isSome_iff_exists.mp hg
    rw [hgg]
    rfl

/-- Witness for `C8_grant_options` at concrete inputs. -/
theorem C8_grant_options_witness :
    grantOptOf (Call.getDatabase "foundation_sales") = none ∧
    (⟨arnConsumer, some ⟨"sales", "111111111111", none, some ()⟩, none,
      some ["SELECT", "DESCRIBE"],
      some ["SELECT", "DESCRIBE"]⟩ : CentralBuilt).permGrant =
      some ["SELECT", "DESCRIBE"] :=
  ⟨C8_grant_options.1 envFound [recScenarioAW] (Call.getDatabase "foundation_sales")
      (by decide),
   C8_grant_options.2 "111111111111"
      {recScenarioAW with PermissionsWithGrantOption := some ["ALL"]} _
      (by decide) (by decide)⟩

/-! ## C10 — the DESCRIBE side effect precedes the validation error -/

/-- C10 confirmed: for a `Table` record that has `DatabaseName` but neither
`Name` nor `TableWildcard` (and the analogous `TableWithColumns` cases),
`buildjson` raises `LFAttributeError` only AFTER the DB-level DESCRIBE
grant has been issued: on the central path the returned trace is exactly
the one DESCRIBE grant on the (unstripped) database, and on the consumption
path it is the full `grant_db_describe` trace, which contains the DESCRIBE
grant whenever that side effect completed. -/
theorem C10_describe_precedes_error :
    (∀ a e p t db, e.Principal = some p → e.Table = some t →
      t.DatabaseName = some db → t.Name = none → t.TableWildcard = none →
      centralBuildjson a e =
        ([centralDescribeCall p db], .error .lfAttributeError)) ∧
    (∀ a e p t db, e.Principal = some p → e.Table = none →
      e.TableWithColumns = some t → t.DatabaseName = some db →
      t.Name = none →
      centralBuildjson a e =
        ([centralDescribeCall p db], .error .lfAttributeError)) ∧
    (∀ a e p t db nm, e.Principal = some p → e.Table = none →
      e.TableWithColumns = some t → t.DatabaseName = some db →
      t.Name = some nm → t.ColumnNames = none → t.ColumnWildcard = none →
      centralBuildjson a e =
        ([centralDescribeCall p db], .error .lfAttributeError)) ∧
    (∀ env e p t db, e.Principal = some p → e.Table = some t →
      t.DatabaseName = some db → t.Name = none → t.TableWildcard = none →
      (consGrantDbDescribe env p db).2 = .ok () →
      consBuildjson env e =
        ((consGrantDbDescribe env p db).1, .error .lfAttributeError)) ∧
    (∀ env p db, (consGrantDbDescribe env p db).2 = .ok () →
      ∃ r, Call.grantPerms p r ["DESCRIBE"] none ∈
        (consGrantDbDescribe env p db).1) := by
  refine ⟨?_, ?_, ?_, ?_, ?_⟩
  · intro a e p t db h1 h2 h3 h4 h5
    simp only [centralBuildjson, h1, h2, h3, h4, h5]
  · intro a e p t db h1 h2 h3 h4 h5
    simp only [centralBuildjson, h1, h2, h3, h4, h5]
  · intro a e p t db nm h1 h2 h3 h4 h5 h6 h7
    simp only [centralBuildjson, h1, h2, h3, h4, h5, h6, h7]
  · intro env e p t db h1 h2 h3 h4 h5 hok
    simp only [consBuildjson, h1, h2, h3, h4, h5]
    cases hgd : consGrantDbDescribe env p db with
    | mk tr rd =>
      rw [hgd] at hok
      dsimp only at hok
      subst hok
      rfl
  · intro env p db hok
    cases h : env.catalog (if pyIn "foundation_" db = true then db
        else "foundation_" ++ db) with
    | found =>
      refine ⟨LFResource.database (some env.accId)
        (if pyIn "foundation_" db = true then db else "foundation_" ++ db), ?_⟩
      simp [consGrantDbDescribe, consCheckDbExist, h]
    | notFound =>
      refine ⟨LFResource.database (some env.accId)
        (if pyIn "foundation_" db = true then db else "foundation_" ++ db), ?_⟩
      simp [consGrantDbDescribe, consCheckDbExist, h]
    | failure m =>
      rw [show (consGrantDbDescribe env p db).2 = .error (.serviceErr m) by
        simp [consGrantDbDescribe, consCheckDbExist, h]] at hok
      exact absurd hok (by simp)

/-- Witness for `C10_describe_precedes_error` at a concrete input. -/
theorem C10_describe_precedes_error_witness :
    centralBuildjson "111111111111" recScenarioA =
      ([centralDescribeCall arnConsumer "foundation_sales"],
        .error .lfAttributeError) :=
  C10_describe_precedes_error.1 "111111111111" recScenarioA arnConsumer
    ⟨some "foundation_sales", none, none⟩ "foundation_sales"
    rfl rfl rfl rfl rfl

/-! ## C9 — only the last record's permission is applied -/

/-- A fine-grained permission call: a grant or revoke whose resource is not
a bare database (the DB-describe side effects are grants on `Database`
resources; the final `grant_lf_permissions`/`revoke_lf_permissions` calls
are the only other grant/revoke calls). -/
def isApplyCall : Call → Bool
  | .grantPerms _ (.database _ _) _ _ => false
  | .grantPerms _ _ _ _ => true
  | .revokePerms _ _ _ => true
  | _ => false

theorem exceptIsOk_exists {ε α : Type} {x : Except ε α} (h : x.isOk = true) :
    ∃ b, x = .ok b := by
  cases x with
  | error e => simp [Except.isOk, Except.toBool] at h
  | ok b => exact ⟨b, rfl⟩

theorem centralBuildjson_noApply (a : String) (e : PermRecord) :
    ((centralBuildjson a e).1.all (fun c => !isApplyCall c)) = true := by
  unfold centralBuildjson
  repeat' split
  all_goals rfl

theorem consGrantDbDescribe_noApply (env : ConsEnv) (prin db0 : String) :
    ((consGrantDbDescribe env prin db0).1.all (fun c => !isApplyCall c)) = true := by
  cases h : env.catalog (if pyIn "foundation_" db0 = true then db0
      else "foundation_" ++ db0) <;>
    simp [consGrantDbDescribe, consCheckDbExist, h, isApplyCall]

theorem consBuildjson_noApply (env : ConsEnv) (e : PermRecord) :
    ((consBuildjson env e).1.all (fun c => !isApplyCall c)) = true := by
  obtain ⟨P, AT, Tab, TWC, Pm, PG, AID⟩ := e
  cases P with
  | none => rfl
  | some p =>
    cases Tab with
    | some t =>
      obtain ⟨dbn, nm, tw⟩ := t
      cases dbn with
      | none => rfl
      | some db =>
        unfold consBuildjson
        dsimp only
        rcases hgd : consGrantDbDescribe env p db with ⟨tr, rd⟩
        have hd : (tr, rd).1.all (fun c => !isApplyCall c) = true := by
          rw [← hgd]
          exact consGrantDbDescribe_noApply env p db
        cases rd <;> cases nm <;> cases tw <;> exact hd
    | none =>
      cases TWC with
      | none => rfl
      | some t =>
        obtain ⟨dbn, nm, cn, cw⟩ := t
        cases dbn with
        | none => rfl
        | some db =>
          unfold consBuildjson
          dsimp only
          rcases hgd : consGrantDbDescribe env p db with ⟨tr, rd⟩
          have hd : (tr, rd).1.all (fun c => !isApplyCall c) = true := by
            rw [← hgd]
            exact consGrantDbDescribe_noApply env p db
          cases rd <;> cases nm <;> cases cn <;> cases cw <;> exact hd

theorem centralFinal_short (r : PermRecord) (b : CentralBuilt) :
    ((centralFinal r b).1.length ≤ 1) := by
  unfold centralFinal centralGrantLf centralRevokeLf
  repeat' split
  all_goals simp

theorem consFinal_short (r : PermRecord) (b : ConsBuilt) :
    ((consFinal r b).1.length ≤ 1) := by
  unfold consFinal consGrantLf consRevokeLf
  repeat' split
  all_goals simp

theorem centralLoop_ok (acct : String) :
    ∀ (rs : List PermRecord) (prev : PermRecord × CentralBuilt),
      (∀ r ∈ rs, ((centralBuildjson acct r).2).isOk = true) →
      ∃ q : PermRecord × CentralBuilt,
        centralLoop acct prev rs =
          (rs.flatMap (fun r => (centralBuildjson acct r).1), .ok q) ∧
        ((rs = [] ∧ q = prev) ∨
          (rs.getLast? = some q.1 ∧ (centralBuildjson acct q.1).2 = .ok q.2)) := by
  intro rs
  induction rs with
  | nil =>
    intro prev _
    exact ⟨prev, rfl, Or.inl ⟨rfl, rfl⟩⟩
  | cons r rs ih =>
    intro prev hv
    obtain ⟨b, hb⟩ := exceptIsOk_exists (hv r (by simp))
    have hrest : ∀ x ∈ rs, ((centralBuildjson acct x).2).isOk = true :=
      fun x hx => hv x (by simp [hx])
    obtain ⟨q, hq, hqor⟩ := ih (r, b) hrest
    refine ⟨q, ?_, ?_⟩
    · unfold centralLoop
      rcases hbj : centralBuildjson acct r with ⟨tr, res⟩
      have hres : res = .ok b := by rw [hbj] at hb; exact hb
      subst hres
      dsimp only
      rw [hq]
      dsimp only
      rw [List.flatMap_cons, hbj]
    · rcases hqor with ⟨rfl, rfl⟩ | ⟨hlast, hokq⟩
      · exact Or.inr ⟨rfl, hb⟩
      · refine Or.inr ⟨?_, hokq⟩
        cases rs with
        | nil => simp at hlast
        | cons x xs => rw [List.getLast?_cons_cons]; exact hlast

theorem consLoop_ok (env : ConsEnv) :
    ∀ (rs : List PermRecord) (prev : PermRecord × ConsBuilt),
      (∀ r ∈ rs, ((consBuildjson env r).2).isOk = true) →
      ∃ q : PermRecord × ConsBuilt,
        consLoop env prev rs =
          (rs.flatMap (fun r => (consBuildjson env r).1), .ok q) ∧
        ((rs = [] ∧ q = prev) ∨
          (rs.getLast? = some q.1 ∧ (consBuildjson env q.1).2 = .ok q.2)) := by
  intro rs
  induction rs with
  | nil =>
    intro prev _
    exact ⟨prev, rfl, Or.inl ⟨rfl, rfl⟩⟩
  | cons r rs ih =>
    intro prev hv
    obtain ⟨b, hb⟩ := exceptIsOk_exists (hv r (by simp))
    have hrest : ∀ x ∈ rs, ((consBuildjson env x).2).isOk = true :=
      fun x hx => hv x (by simp [hx])
    obtain ⟨q, hq, hqor⟩ := ih (r, b) hrest
    refine ⟨q, ?_, ?_⟩
    · unfold consLoop
      rcases hbj : consBuildjson env r with ⟨tr, res⟩
      have hres : res = .ok b := by rw [hbj] at hb; exact hb
      subst hres
      dsimp only
      rw [hq]
      dsimp only
      rw [List.flatMap_cons, hbj]
    · rcases hqor with ⟨rfl, rfl⟩ | ⟨hlast, hokq⟩
      · exact Or.inr ⟨rfl, hb⟩
      · refine Or.inr ⟨?_, hokq⟩
        cases rs with
        | nil => simp at hlast
        | cons x xs => rw [List.getLast?_cons_cons]; exact hlast

/-- C9 confirmed: in both account-path handlers, for any non-empty batch in
which every record normalizes successfully, the handler trace is the
concatenation of EVERY record's `buildjson` trace (normalization and its
DB-describe side effect run per record) followed by the final trace built
from the LAST record only; no `buildjson` trace contains a fine-grained
call and the final trace holds at most one call, so earlier records never
get their own permission applied. -/
theorem C9_only_last_applied :
    (∀ acct records, records ≠ [] →
      (∀ r ∈ records, ((centralBuildjson acct r).2).isOk = true) →
      ∃ rl bl, records.getLast? = some rl ∧
        (centralBuildjson acct rl).2 = .ok bl ∧
        centralHandler acct records =
          (records.flatMap (fun r => (centralBuildjson acct r).1) ++
            (centralFinal rl bl).1, (centralFinal rl bl).2) ∧
        (∀ c ∈ records.flatMap (fun r => (centralBuildjson acct r).1),
          isApplyCall c = false) ∧
        (centralFinal rl bl).1.length ≤ 1) ∧
    (∀ env records, records ≠ [] →
      (∀ r ∈ records, ((consBuildjson env r).2).isOk = true) →
      ∃ rl bl, records.getLast? = some rl ∧
        (consBuildjson env rl).2 = .ok bl ∧
        consHandler env records =
          (records.flatMap (fun r => (consBuildjson env r).1) ++
            (consFinal rl bl).1, (consFinal rl bl).2) ∧
        (∀ c ∈ records.flatMap (fun r => (consBuildjson env r).1),
          isApplyCall c = false) ∧
        (consFinal rl bl).1.length ≤ 1) := by
  constructor
  · intro acct records hne hv
    cases records with
    | nil => exact absurd rfl hne
    | cons r rs =>
      obtain ⟨b, hb⟩ := exceptIsOk_exists (hv r (by simp))
      have hrest : ∀ x ∈ rs, ((centralBuildjson acct x).2).isOk = true :=
        fun x hx => hv x (by simp [hx])
      obtain ⟨q, hq, hqor⟩ := centralLoop_ok acct rs (r, b) hrest
      have hmem : ∀ c ∈ (r :: rs).flatMap (fun x => (centralBuildjson acct x).1),
          isApplyCall c = false := by
        intro c hc
        rw [List.mem_flatMap] at hc
        obtain ⟨x, hx, hcx⟩ := hc
        have h2 := List.all_eq_true.mp (centralBuildjson_noApply acct x) c hcx
        simpa using h2
      have hhandler : ∀ rl bl, q = (rl, bl) →
          centralHandler acct (r :: rs) =
            ((r :: rs).flatMap (fun x => (centralBuildjson acct x).1) ++
              (centralFinal rl bl).1, (centralFinal rl bl).2) := by
        intro rl bl hq2
        unfold centralHandler
        dsimp only
        have hbj : centralBuildjson acct r =
            ((centralBuildjson acct r).1, Except.ok b) := by
          rw [← hb]
        rw [hbj]
        dsimp only
        rw [hq, hq2]
        dsimp only
        simp [List.flatMap_cons, List.append_assoc]
      rcases hqor with ⟨hrs, hqprev⟩ | ⟨hlast, hokq⟩
      · subst hrs
        exact ⟨r, b, rfl, hb, hhandler r b hqprev, hmem, centralFinal_short r b⟩
      · refine ⟨q.1, q.2, ?_, hokq, hhandler q.1 q.2 rfl, hmem,
          centralFinal_short q.1 q.2⟩
        cases rs with
        | nil => simp at hlast
        | cons x xs => rw [List.getLast?_cons_cons]; exact hlast
  · intro env records hne hv
    cases records with
    | nil => exact absurd rfl hne
    | cons r rs =>
      obtain ⟨b, hb⟩ := exceptIsOk_exists (hv r (by simp))
      have hrest : ∀ x ∈ rs, ((consBuildjson env x).2).isOk = true :=
        fun x hx => hv x (by simp [hx])
      obtain ⟨q, hq, hqor⟩ := consLoop_ok env rs (r, b) hrest
      have hmem : ∀ c ∈ (r :: rs).flatMap (fun x => (consBuildjson env x).1),
          isApplyCall c = false := by
        intro c hc
        rw [List.mem_flatMap] at hc
        obtain ⟨x, hx, hcx⟩ := hc
        have h2 := List.all_eq_true.mp (consBuildjson_noApply env x) c hcx
        simpa using h2
      have hhandler : ∀ rl bl, q = (rl, bl) →
          consHandler env (r :: rs) =
            ((r :: rs).flatMap (fun x => (consBuildjson env x).1) ++
              (consFinal rl bl).1, (consFinal rl bl).2) := by
        intro rl bl hq2
        unfold consHandler
        dsimp only
        have hbj : consBuildjson env r =
            ((consBuildjson env r).1, Except.ok b) := by
          rw [← hb]
        rw [hbj]
        dsimp only
        rw [hq, hq2]
        dsimp only
        simp [List.flatMap_cons, List.append_assoc]
      rcases hqor with ⟨hrs, hqprev⟩ | ⟨hlast, hokq⟩
      · subst hrs
        exact ⟨r, b, rfl, hb, hhandler r b hqprev, hmem, consFinal_short r b⟩
      · refine ⟨q.1, q.2, ?_, hokq, hhandler q.1 q.2 rfl, hmem,
          consFinal_short q.1 q.2⟩
        cases rs with
        | nil => simp at hlast
        | cons x xs => rw [List.getLast?_cons_cons]; exact hlast

/-- Witness for `C9_only_last_applied` on a concrete two-record batch. -/
theorem C9_only_last_applied_witness :
    ∃ rl bl, [recScenarioAW, recSuperset].getLast? = some rl ∧
      (centralBuildjson "111111111111" rl).2 = .ok bl ∧
      centralHandler "111111111111" [recScenarioAW, recSuperset] =
        ([recScenarioAW, recSuperset].flatMap
          (fun r => (centralBuildjson "111111111111" r).1) ++
          (centralFinal rl bl).1, (centralFinal rl bl).2) ∧
      (∀ c ∈ [recScenarioAW, recSuperset].flatMap
          (fun r => (centralBuildjson "111111111111" r).1),
        isApplyCall c = false) ∧
      (centralFinal rl bl).1.length ≤ 1 :=
  C9_only_last_applied.1 "111111111111" [recScenarioAW, recSuperset]
    (by decide) (by decide)

/-! ## C6 — dispatcher ordering of describe intent, pause, and original -/

/-- Validity of a record for the dispatcher loop: every accessed key is
present, the principal parses whenever the grant branch subscripts the
regex match, and the companion generation succeeds in the cross-account
branch. -/
def dispatchValid (env : DispatchEnv) (r : PermRecord) : Prop :=
  r.Principal.isSome = true ∧ r.AccessType.isSome = true ∧
  r.AccountID.isSome = true ∧
  (r.AccessType = some "grant" →
    (r.Principal.bind arnAccountId).isSome = true ∧
    (r.Principal.bind arnAccountId ≠ some env.accId →
      (generateDbPerm env.accId r).isOk = true))

instance (env : DispatchEnv) (r : PermRecord) :
    Decidable (dispatchValid env r) := by
  unfold dispatchValid
  infer_instance

theorem dispatchRecord_ok (env : DispatchEnv) (r : PermRecord)
    (hv : dispatchValid env r) :
    ∃ a, r.AccountID = some a ∧
      (∀ p acc, r.Principal = some p → r.AccessType = some "grant" →
        arnAccountId p = some acc → acc ≠ env.accId →
        ∃ dbp, generateDbPerm env.accId r = .ok dbp ∧
          dbp.AccountID = some env.accId ∧
          dispatchRecord env r =
            (Call.snsPublish dbp env.accId ::
              ((if env.pubStatus dbp = 200 then [Call.sleepSec 3] else []) ++
                [Call.snsPublish r a]), .ok ())) ∧
      ((r.AccessType ≠ some "grant" ∨
          r.Principal.bind arnAccountId = some env.accId) →
        dispatchRecord env r = ([Call.snsPublish r a], .ok ())) ∧
      (dispatchRecord env r).2 = .ok () := by
  obtain ⟨hP, hAT, hAID, hgrant⟩ := hv
  obtain ⟨p, hp⟩ := Option.isSome_iff_exists.mp hP
  obtain ⟨at_, hat⟩ := Option.isSome_iff_exists.mp hAT
  obtain ⟨a, ha⟩ := Option.isSome_iff_exists.mp hAID
  refine ⟨a, ha, ?_⟩
  by_cases hg : at_ = "grant"
  · subst hg
    obtain ⟨hparse, hcross⟩ := hgrant hat
    have hparse2 : (arnAccountId p).isSome = true := by
      simpa [hp] using hparse
    obtain ⟨acc, hacc⟩ := Option.isSome_iff_exists.mp hparse2
    by_cases hne : acc = env.accId
    · have hsingle : dispatchRecord env r = ([Call.snsPublish r a], .ok ()) := by
        subst hne
        simp [dispatchRecord, publishSns, hp, hat, hacc, ha, Except.map]
      refine ⟨?_, fun _ => hsingle, by rw [hsingle]⟩
      intro p2 acc2 hp2 hat2 hacc2 hne2
      rw [hp] at hp2
      injection hp2 with hpe
      subst hpe
      rw [hacc] at hacc2
      injection hacc2 with hae
      subst hae
      exact absurd hne hne2
    · have hok := hcross (by
        rw [hp]
        simp only [Option.some_bind, hacc]
        intro hcon
        injection hcon with h2
        exact hne h2)
      obtain ⟨dbp, hdbp⟩ := exceptIsOk_exists hok
      have hfields := generateDbPerm_fields env.accId r dbp hdbp
      have hshape : dispatchRecord env r =
          (Call.snsPublish dbp env.accId ::
            ((if env.pubStatus dbp = 200 then [Call.sleepSec 3] else []) ++
              [Call.snsPublish r a]), .ok ()) := by
        simp [dispatchRecord, publishSns, hp, hat, hacc, hne, hdbp,
          hfields.1, ha, Except.map]
      refine ⟨?_, ?_, by rw [hshape]⟩
      · intro p2 acc2 hp2 hat2 hacc2 hne2
        rw [hp] at hp2
        injection hp2 with hpe
        subst hpe
        rw [hacc] at hacc2
        injection hacc2 with hae
        subst hae
        exact ⟨dbp, hdbp, hfields.1, hshape⟩
      · intro hor
        rcases hor with hat2 | hsame
        · exact absurd hat hat2
        · rw [hp] at hsame
          simp only [Option.some_bind] at hsame
          rw [hacc] at hsame
          injection hsame with h2
          exact absurd h2 hne
  · have hsingle : dispatchRecord env r = ([Call.snsPublish r a], .ok ()) := by
      simp [dispatchRecord, publishSns, hp, hat, hg, ha, Except.map]
    refine ⟨?_, fun _ => hsingle, by rw [hsingle]⟩
    intro p2 acc2 hp2 hat2 hacc2 hne2
    rw [hat] at hat2
    injection hat2 with h2
    exact absurd h2 hg

/-- C6 confirmed (for batches of valid records): the dispatcher loop
completes and its trace is the in-order concatenation of the per-record
traces; every record with `AccessType = "grant"` whose parsed principal
account differs from the central account is FORCED to the shape
"publish the generated DB-describe intent, then sleep 3 seconds exactly
when that publish returned status 200, then publish the original record";
and every other record — revoke, or same-account grant — is forced to
exactly the single publish of the original record. -/
theorem C6_dispatch_ordering (env : DispatchEnv) (records : List PermRecord)
    (hv : ∀ r ∈ records, dispatchValid env r) :
    (dispatchLoop env records).2 = .ok () ∧
    (dispatchLoop env records).1 =
      records.flatMap (fun r => (dispatchRecord env r).1) ∧
    (∀ r ∈ records, ∃ a, r.AccountID = some a ∧
      (∀ p acc, r.Principal = some p → r.AccessType = some "grant" →
        arnAccountId p = some acc → acc ≠ env.accId →
        ∃ dbp, generateDbPerm env.accId r = .ok dbp ∧
          dbp.AccountID = some env.accId ∧
          dispatchRecord env r =
            (Call.snsPublish dbp env.accId ::
              ((if env.pubStatus dbp = 200 then [Call.sleepSec 3] else []) ++
                [Call.snsPublish r a]), .ok ())) ∧
      ((r.AccessType ≠ some "grant" ∨
          r.Principal.bind arnAccountId = some env.accId) →
        dispatchRecord env r = ([Call.snsPublish r a], .ok ()))) := by
  have hrec : ∀ r ∈ records, (dispatchRecord env r).2 = .ok () := by
    intro r hr
    obtain ⟨a, _, _, _, hok⟩ := dispatchRecord_ok env r (hv r hr)
    exact hok
  have hmain : ∀ rs : List PermRecord,
      (∀ r ∈ rs, (dispatchRecord env r).2 = .ok ()) →
      dispatchLoop env rs =
        (rs.flatMap (fun r => (dispatchRecord env r).1), .ok ()) := by
    intro rs
    induction rs with
    | nil => intro _; rfl
    | cons r rs ih =>
      intro h
      unfold dispatchLoop
      have hbj : dispatchRecord env r =
          ((dispatchRecord env r).1, Except.ok ()) := by
        rw [← h r (by simp)]
      rw [hbj]
      dsimp only
      rw [ih (fun x hx => h x (by simp [hx]))]
      dsimp only
      rw [List.flatMap_cons]
  refine ⟨by rw [hmain records hrec], by rw [hmain records hrec], ?_⟩
  intro r hr
  obtain ⟨a, ha, h1, h2, _⟩ := dispatchRecord_ok env r (hv r hr)
  exact ⟨a, ha, h1, h2⟩

/-- A revoke record as the dispatcher sees it. -/
def recRevoke : PermRecord :=
  ⟨some arnConsumer, some "revoke", some ⟨some "db1", some "t1", none⟩, none,
    some ["SELECT"], none, some "222222222222"⟩

/-- Witness for `C6_dispatch_ordering` on a concrete grant + revoke batch:
the cross-account grant record's trace is forced to be describe-publish,
sleep, original-publish, and the revoke record's trace is forced to be the
single original publish. -/
theorem C6_dispatch_ordering_witness :
    (dispatchLoop envDispatch [recDispatch, recRevoke]).2 = .ok () ∧
    (dispatchLoop envDispatch [recDispatch, recRevoke]).1 =
      [recDispatch, recRevoke].flatMap
        (fun r => (dispatchRecord envDispatch r).1) ∧
    dispatchRecord envDispatch recRevoke =
      ([Call.snsPublish recRevoke "222222222222"], .ok ()) ∧
    ∃ dbp, generateDbPerm "111111111111" recDispatch = .ok dbp ∧
      dispatchRecord envDispatch recDispatch =
        (Call.snsPublish dbp "111111111111" ::
          ((if envDispatch.pubStatus dbp = 200 then [Call.sleepSec 3]
            else []) ++ [Call.snsPublish recDispatch "222222222222"]),
          .ok ()) := by
  obtain ⟨h1, h2, h3⟩ :=
    C6_dispatch_ordering envDispatch [recDispatch, recRevoke] (by decide)
  refine ⟨h1, h2, ?_, ?_⟩
  · obtain ⟨a, ha, _, hsingle⟩ := h3 recRevoke (by simp)
    have haa : ("222222222222" : String) = a := Option.some.inj ha
    rw [← haa] at hsingle
    exact hsingle (Or.inl (by decide))
  · obtain ⟨a, ha, hcross, _⟩ := h3 recDispatch (by simp)
    have haa : ("222222222222" : String) = a := Option.some.inj ha
    obtain ⟨dbp, hdbp, hacct, hshape⟩ :=
      hcross arnConsumer "222222222222" rfl rfl (by decide) (by decide)
    rw [← haa] at hshape
    exact ⟨dbp, hdbp, hshape⟩


end LF
